import Mathlib

/-!
Verification of the curve-animation core of `webar-game-kit`
(`src/curve-animator.js`): a Catmull-Rom spline evaluator, an arc-length
lookup table with binary-search inverse, and a play/pause/resume/complete
traversal state machine.

The JavaScript is embedded shallowly: numbers become real numbers, the
`CurveAnimator` object becomes a record, methods become functions from the
record to an updated record.  Array reads through in-range indices are
modelled with `List.getD`; a second, JavaScript-faithful layer
(`getPointJS`, `mkAnimatorJS`) models out-of-range reads as `undefined`
and the resulting `TypeError` via `Except`, and is proved to agree with
the total layer on well-formed inputs (at least two control points).
-/

namespace CurveAnim

noncomputable section

/-- A 3D vector, modelling `THREE.Vector3` (components as real numbers). -/
@[ext]
structure Vec3 where
  x : ℝ
  y : ℝ
  z : ℝ
deriving DecidableEq

/-- Euclidean distance, modelling `THREE.Vector3.prototype.distanceTo`. -/
def dist3 (a b : Vec3) : ℝ :=
  Real.sqrt ((b.x - a.x) ^ 2 + (b.y - a.y) ^ 2 + (b.z - a.z) ^ 2)

/-- `CurveAnimator.catmullRom(p0, p1, p2, p3, t)` (curve-animator.js:49-57):
Catmull-Rom interpolation between 4 points, each coordinate independently. -/
def catmullRom (p0 p1 p2 p3 : Vec3) (t : ℝ) : Vec3 :=
  let t2 := t * t
  let t3 := t2 * t
  { x := 0.5 * (2 * p1.x + (-p0.x + p2.x) * t + (2 * p0.x - 5 * p1.x + 4 * p2.x - p3.x) * t2 + (-p0.x + 3 * p1.x - 3 * p2.x + p3.x) * t3)
    y := 0.5 * (2 * p1.y + (-p0.y + p2.y) * t + (2 * p0.y - 5 * p1.y + 4 * p2.y - p3.y) * t2 + (-p0.y + 3 * p1.y - 3 * p2.y + p3.y) * t3)
    z := 0.5 * (2 * p1.z + (-p0.z + p2.z) * t + (2 * p0.z - 5 * p1.z + 4 * p2.z - p3.z) * t2 + (-p0.z + 3 * p1.z - 3 * p2.z + p3.z) * t3) }

/-- `getPoint(t)` (curve-animator.js:60-73), total layer.  All array indices
are clamped exactly as in the source; with at least two control points every
index is in range, so reads use `List.getD` with an irrelevant default.
Natural-number subtraction realises the `Math.max(0, ...)` clamps. -/
def getPoint (pts : List Vec3) (t : ℝ) : Vec3 :=
  let t' := max 0 (min 1 t)
  let n := pts.length - 1
  let segment := min (⌊t' * (n : ℝ)⌋.toNat) (n - 1)
  let localT := t' * (n : ℝ) - (segment : ℝ)
  let p0 := pts.getD (segment - 1) ⟨0, 0, 0⟩
  let p1 := pts.getD segment ⟨0, 0, 0⟩
  let p2 := pts.getD (min n (segment + 1)) ⟨0, 0, 0⟩
  let p3 := pts.getD (min n (segment + 2)) ⟨0, 0, 0⟩
  catmullRom p0 p1 p2 p3 localT

/-- One row of the arc-length table: `{ parameter: t, distance: totalDist }`. -/
structure Sample where
  parameter : ℝ
  distance : ℝ
deriving DecidableEq

/-- The body of the `for` loop of `_buildArcLengthTable` (curve-animator.js:80-86),
written as forward recursion: `i` is the loop counter, `fuel` the number of
remaining iterations, `totalDist` and `prev` the loop-carried state. -/
def buildRest (pts : List Vec3) (S : ℕ) : ℕ → ℕ → ℝ → Vec3 → List Sample
  | _, 0, _, _ => []
  | i, fuel + 1, totalDist, prev =>
    let t := (i : ℝ) / (S : ℝ)
    let point := getPoint pts t
    let td := totalDist + dist3 prev point
    ⟨t, td⟩ :: buildRest pts S (i + 1) fuel td point

/-- `_buildArcLengthTable(segments)` (curve-animator.js:75-88): the table is
seeded with `{parameter: 0, distance: 0}` and the loop runs `i = 1 .. S`. -/
def buildArcLengthTable (pts : List Vec3) (S : ℕ) : List Sample :=
  ⟨0, 0⟩ :: buildRest pts S 1 S 0 (getPoint pts 0)

/-- `this.totalLength = this.arcLengthTable[this.arcLengthTable.length - 1].distance`
(curve-animator.js:38). -/
def tableTotalLength (pts : List Vec3) (S : ℕ) : ℝ :=
  ((buildArcLengthTable pts S).getD ((buildArcLengthTable pts S).length - 1) ⟨0, 0⟩).distance

/-- The `while (low < high - 1)` binary-search loop of `getParameterForDistance`
(curve-animator.js:96-101), over the distance column `D`.  `(low + high) >> 1`
is floor division by two. -/
def gpfdSearch (D : ℕ → ℝ) (d : ℝ) (low high : ℕ) : ℕ × ℕ :=
  if h : low < high - 1 then
    let mid := (low + high) / 2
    if D mid < d then gpfdSearch D d mid high else gpfdSearch D d low mid
  else (low, high)
termination_by high - low
decreasing_by
  · omega
  · omega

/-- `getParameterForDistance(targetDist)` (curve-animator.js:91-107), taking the
table and `totalLength` of the receiving animator as explicit arguments. -/
def getParameterForDistance (table : List Sample) (totalLength : ℝ) (targetDist : ℝ) : ℝ :=
  if targetDist ≤ 0 then 0
  else if totalLength ≤ targetDist then 1
  else
    let p := gpfdSearch (fun i => (table.getD i ⟨0, 0⟩).distance) targetDist 0 (table.length - 1)
    let low := p.1
    let high := p.2
    let d0 := (table.getD low ⟨0, 0⟩).distance
    let d1 := (table.getD high ⟨0, 0⟩).distance
    let frac := (targetDist - d0) / (d1 - d0)
    (table.getD low ⟨0, 0⟩).parameter
      + frac * ((table.getD high ⟨0, 0⟩).parameter - (table.getD low ⟨0, 0⟩).parameter)

/-- JavaScript number truncation toward zero, as used by the `%` operator. -/
def jsTrunc (x : ℝ) : ℤ :=
  if 0 ≤ x then ⌊x⌋ else ⌈x⌉

/-- The JavaScript remainder operator `a % b` for `b ≠ 0`: the remainder after
truncating division, carrying the sign of the dividend.  JavaScript yields
`NaN` when `b = 0`; that case is unrepresentable over the reals and is tracked
separately by `updateWrapsModZero`.  (For `b = 0` this Lean function returns
`a`, because real division by zero is zero; no lemma below relies on that.) -/
def jsMod (a b : ℝ) : ℝ :=
  a - b * (jsTrunc (a / b) : ℝ)

/-- The constructor options object with its defaults (curve-animator.js:17-25). -/
structure Config where
  speed : ℝ := 1
  mode : String := "train"
  duration : ℝ := 3
  loop : Bool := false
  orientToDirection : Bool := true
  lookAheadDistance : ℝ := 1 / 100
  arcLengthSegments : ℕ := 200

/-- The `CurveAnimator` instance state: configuration fields, the arc-length
table and `totalLength` computed at construction, and the playback state
(curve-animator.js:26-45).  The `_target` reference is an external Three.js
object mutated only through side effects and is not part of the modelled
state. -/
structure Animator where
  points : List Vec3
  speed : ℝ
  mode : String
  duration : ℝ
  loop : Bool
  orientToDirection : Bool
  lookAheadDistance : ℝ
  arcLengthTable : List Sample
  totalLength : ℝ
  progress : ℝ
  distanceTraveled : ℝ
  isPlaying : Bool
  isComplete : Bool

/-- The constructor (curve-animator.js:17-46), total layer: control points are
taken as `Vec3` values directly (the source maps array/object literals through
`new THREE.Vector3`, an identity on already-constructed vectors). -/
def mkAnimator (points : List Vec3) (cfg : Config) : Animator :=
  { points := points
    speed := cfg.speed
    mode := cfg.mode
    duration := cfg.duration
    loop := cfg.loop
    orientToDirection := cfg.orientToDirection
    lookAheadDistance := cfg.lookAheadDistance
    arcLengthTable := buildArcLengthTable points cfg.arcLengthSegments
    totalLength := tableTotalLength points cfg.arcLengthSegments
    progress := 0
    distanceTraveled := 0
    isPlaying := false
    isComplete := false }

/-- `play()` (curve-animator.js:115-121). -/
def play (a : Animator) : Animator :=
  { a with isPlaying := true, isComplete := false, progress := 0, distanceTraveled := 0 }

/-- `pause()` (curve-animator.js:123). -/
def pause (a : Animator) : Animator :=
  { a with isPlaying := false }

/-- `resume()` (curve-animator.js:124). -/
def resume (a : Animator) : Animator :=
  { a with isPlaying := true }

/-- `reset()` (curve-animator.js:126-132). -/
def reset (a : Animator) : Animator :=
  { a with progress := 0, distanceTraveled := 0, isPlaying := false, isComplete := false }

/-- `update(dt)` (curve-animator.js:135-173).  Returns the updated state and
the returned value: `none` models the early `return` (JavaScript `undefined`)
when not playing or complete, `some position` the computed position.  The
optional `_target` mutation and `lookAt` call affect only the external target
object and no modelled state. -/
def update (a : Animator) (dt : ℝ) : Animator × Option Vec3 :=
  if a.isPlaying = false ∨ a.isComplete = true then (a, none)
  else
    let a' :=
      if a.mode = "train" then
        let d := a.distanceTraveled + a.speed * dt
        if a.totalLength ≤ d then
          if a.loop then
            let d' := jsMod d a.totalLength
            { a with distanceTraveled := d',
                     progress := getParameterForDistance a.arcLengthTable a.totalLength d' }
          else
            { a with distanceTraveled := a.totalLength, isComplete := true,
                     progress := getParameterForDistance a.arcLengthTable a.totalLength a.totalLength }
        else
          { a with distanceTraveled := d,
                   progress := getParameterForDistance a.arcLengthTable a.totalLength d }
      else
        let p := a.progress + dt / a.duration
        if (1 : ℝ) ≤ p then
          if a.loop then { a with progress := jsMod p 1 }
          else { a with progress := 1, isComplete := true }
        else { a with progress := p }
    (a', some (getPoint a'.points a'.progress))

/-- Repeated `update` calls, keeping only the state (the per-tick positions
are discarded, as a rendering consumer would after applying them). -/
def runUpdates (a : Animator) (dts : List ℝ) : Animator :=
  dts.foldl (fun s dt => (update s dt).1) a

/-- Length of the sampled chord from parameter `j/S` to `(j+1)/S`: the summand
accumulated by iteration `i = j+1` of the `_buildArcLengthTable` loop. -/
def segLen (pts : List Vec3) (S : ℕ) (j : ℕ) : ℝ :=
  dist3 (getPoint pts ((j : ℝ) / (S : ℝ))) (getPoint pts (((j + 1 : ℕ) : ℝ) / (S : ℝ)))

/-- Cumulative chord length over the first `k` sampled segments: the closed
form of the `totalDist` accumulator of `_buildArcLengthTable`. -/
def cumLen (pts : List Vec3) (S : ℕ) (k : ℕ) : ℝ :=
  ∑ j ∈ Finset.range k, segLen pts S j

/-- Exactly the control-flow conditions under which `update(dt)` executes
`this.distanceTraveled %= this.totalLength` (curve-animator.js:142) with the
divisor `totalLength` equal to zero.  In JavaScript the remainder operator
with divisor 0 yields `NaN`; the code has no guard against it. -/
def updateWrapsModZero (a : Animator) (dt : ℝ) : Prop :=
  a.isPlaying = true ∧ a.isComplete = false ∧ a.mode = "train" ∧
    a.totalLength ≤ a.distanceTraveled + a.speed * dt ∧ a.loop = true ∧
    a.totalLength = 0

/-- Failure modes of the JavaScript-faithful layer.  `typeError` models the
`TypeError` thrown when a property of `undefined` is read (an out-of-range
array element fed to `catmullRom`).  `invalidConfig` names the explicit
invalid-configuration error the specification calls for; no code path of the
source ever produces it. -/
inductive JsError where
  | typeError : JsError
  | invalidConfig : JsError
deriving DecidableEq

/-- JavaScript array indexing `pts[i]` for an arbitrary integer index:
out-of-range (including negative) indices yield `undefined` (`none`). -/
def jsIndex (pts : List Vec3) (i : ℤ) : Option Vec3 :=
  if 0 ≤ i then pts[i.toNat]? else none

/-- `getPoint(t)` (curve-animator.js:60-73), JavaScript-faithful layer: index
arithmetic over ℤ exactly as evaluated by JavaScript, and a `TypeError` as
soon as `catmullRom` would read a coordinate of an `undefined` element. -/
def getPointJS (pts : List Vec3) (t : ℝ) : Except JsError Vec3 :=
  let t' := max 0 (min 1 t)
  let n : ℤ := (pts.length : ℤ) - 1
  let segment : ℤ := min ⌊t' * (n : ℝ)⌋ (n - 1)
  let localT : ℝ := t' * (n : ℝ) - (segment : ℝ)
  match jsIndex pts (max 0 (segment - 1)), jsIndex pts segment,
      jsIndex pts (min n (segment + 1)), jsIndex pts (min n (segment + 2)) with
  | some p0, some p1, some p2, some p3 => .ok (catmullRom p0 p1 p2 p3 localT)
  | _, _, _, _ => .error .typeError

/-- The `_buildArcLengthTable` loop in the JavaScript-faithful layer. -/
def buildRestJS (pts : List Vec3) (S : ℕ) : ℕ → ℕ → ℝ → Vec3 → Except JsError (List Sample)
  | _, 0, _, _ => .ok []
  | i, fuel + 1, totalDist, prev => do
    let t := (i : ℝ) / (S : ℝ)
    let point ← getPointJS pts t
    let td := totalDist + dist3 prev point
    let rest ← buildRestJS pts S (i + 1) fuel td point
    return ⟨t, td⟩ :: rest

/-- `_buildArcLengthTable(segments)` in the JavaScript-faithful layer. -/
def buildArcLengthTableJS (pts : List Vec3) (S : ℕ) : Except JsError (List Sample) := do
  let prev ← getPointJS pts 0
  let rest ← buildRestJS pts S 1 S 0 prev
  return ⟨0, 0⟩ :: rest

/-- The constructor in the JavaScript-faithful layer: a `TypeError` escaping
the eager arc-length table construction aborts object construction. -/
def mkAnimatorJS (points : List Vec3) (cfg : Config) : Except JsError Animator := do
  let table ← buildArcLengthTableJS points cfg.arcLengthSegments
  return { points := points
           speed := cfg.speed
           mode := cfg.mode
           duration := cfg.duration
           loop := cfg.loop
           orientToDirection := cfg.orientToDirection
           lookAheadDistance := cfg.lookAheadDistance
           arcLengthTable := table
           totalLength := (table.getD (table.length - 1) ⟨0, 0⟩).distance
           progress := 0
           distanceTraveled := 0
           isPlaying := false
           isComplete := false }

/-- A concrete in-flight distance-mode animator state, used to instantiate
witnesses at a point where every hypothesis is checkable by computation. -/
def witnessTrain : Animator :=
  { points := [⟨0, 0, 0⟩, ⟨1, 0, 0⟩]
    speed := 1
    mode := "train"
    duration := 3
    loop := false
    orientToDirection := true
    lookAheadDistance := 1 / 100
    arcLengthTable := [⟨0, 0⟩, ⟨1, 10⟩]
    totalLength := 10
    progress := 0
    distanceTraveled := 0
    isPlaying := true
    isComplete := false }

/-! ## Basic facts about the interpolation kernel -/

theorem catmullRom_at_zero (p0 p1 p2 p3 : Vec3) : catmullRom p0 p1 p2 p3 0 = p1 := by
  ext <;> simp [catmullRom] <;> ring

theorem catmullRom_at_one (p0 p1 p2 p3 : Vec3) : catmullRom p0 p1 p2 p3 1 = p2 := by
  ext <;> simp [catmullRom] <;> ring

/-- C1: for every control-point sequence of N ≥ 2 points, the spline passes
through every control point: `getPoint(i/(N-1))` equals control point `i` for
each index `i` in `0..N-1`; in particular `getPoint(0)` is the first control
point (`i = 0`) and `getPoint(1)` is the last (`i = N-1`), exactly. -/
theorem spline_hits_control_points (pts : List Vec3) (h2 : 2 ≤ pts.length)
    (i : ℕ) (hi : i < pts.length) :
    getPoint pts ((i : ℝ) / ((pts.length : ℝ) - 1)) = pts.getD i ⟨0, 0, 0⟩ := by
  have hlen : 1 ≤ pts.length - 1 := by omega
  have hNn : (pts.length : ℝ) - 1 = ((pts.length - 1 : ℕ) : ℝ) := by
    rw [Nat.cast_sub (by omega)]; norm_num
  rw [hNn]
  simp only [getPoint]
  generalize hnn : pts.length - 1 = n
  rw [hnn] at hNn
  have hn1 : 1 ≤ n := by omega
  have hin : i ≤ n := by omega
  have hnR : (0 : ℝ) < (n : ℝ) := by exact_mod_cast Nat.lt_of_lt_of_le Nat.zero_lt_one hn1
  have ht0 : (0 : ℝ) ≤ (i : ℝ) / (n : ℝ) := by positivity
  have ht1 : (i : ℝ) / (n : ℝ) ≤ 1 := by
    rw [div_le_one hnR]; exact_mod_cast hin
  rw [min_eq_right ht1, max_eq_right ht0, div_mul_cancel₀ _ (ne_of_gt hnR),
    Int.floor_natCast]
  rcases Nat.lt_or_ge i n with hlt | hge
  · rw [Int.toNat_natCast, min_eq_left (by omega), sub_self, catmullRom_at_zero]
  · have hieq : i = n := le_antisymm hin hge
    subst hieq
    rw [Int.toNat_natCast, min_eq_right (by omega)]
    have hone : (i : ℝ) - ((i - 1 : ℕ) : ℝ) = 1 := by
      rw [Nat.cast_sub (by omega)]; ring
    rw [hone, catmullRom_at_one]
    have hsucc : i - 1 + 1 = i := by omega
    rw [hsucc, min_self]

/-- Witness for C1 at the concrete curve `[(0,0,0), (1,0,0)]`, index 1. -/
theorem spline_hits_control_points_witness :
    getPoint [⟨0, 0, 0⟩, ⟨1, 0, 0⟩]
      ((1 : ℝ) / ((([⟨0, 0, 0⟩, ⟨1, 0, 0⟩] : List Vec3).length : ℝ) - 1)) = ⟨1, 0, 0⟩ := by
  have h := spline_hits_control_points [⟨0, 0, 0⟩, ⟨1, 0, 0⟩] (by simp) 1 (by simp)
  simpa [List.getD] using h

/-! ## Closed form of the arc-length table -/

theorem segLen_nonneg (pts : List Vec3) (S j : ℕ) : 0 ≤ segLen pts S j :=
  Real.sqrt_nonneg _

theorem cumLen_mono (pts : List Vec3) (S : ℕ) {k l : ℕ} (h : k ≤ l) :
    cumLen pts S k ≤ cumLen pts S l := by
  unfold cumLen
  exact Finset.sum_le_sum_of_subset_of_nonneg (Finset.range_subset.mpr h)
    (fun j _ _ => segLen_nonneg pts S j)

theorem buildRest_closed (pts : List Vec3) (S : ℕ) :
    ∀ (fuel j : ℕ) (td : ℝ),
      buildRest pts S (j + 1) fuel td (getPoint pts ((j : ℝ) / (S : ℝ))) =
        (List.range fuel).map
          (fun k => ⟨((j + 1 + k : ℕ) : ℝ) / (S : ℝ),
                     td + ∑ m ∈ Finset.range (k + 1), segLen pts S (j + m)⟩) := by
  intro fuel
  induction fuel with
  | zero => intro j td; simp [buildRest]
  | succ fuel ih =>
    intro j td
    simp only [buildRest]
    have hseg : dist3 (getPoint pts ((j : ℝ) / (S : ℝ)))
        (getPoint pts (((j + 1 : ℕ) : ℝ) / (S : ℝ))) = segLen pts S j := rfl
    rw [hseg, ih (j + 1) (td + segLen pts S j),
      List.range_succ_eq_map, List.map_cons, List.map_map]
    congr 1
    · simp [Sample.mk.injEq]
    · refine List.map_congr_left (fun k _ => ?_)
      simp only [Function.comp_apply, Sample.mk.injEq]
      refine ⟨by push_cast; ring, ?_⟩
      have hshift : ∑ m ∈ Finset.range (k + 1 + 1), segLen pts S (j + m) =
          (∑ m ∈ Finset.range (k + 1), segLen pts S (j + (m + 1))) + segLen pts S (j + 0) :=
        Finset.sum_range_succ' (fun m => segLen pts S (j + m)) (k + 1)
      have hsum : ∑ m ∈ Finset.range (k + 1), segLen pts S (j + 1 + m) =
          ∑ m ∈ Finset.range (k + 1), segLen pts S (j + (m + 1)) :=
        Finset.sum_congr rfl (fun m _ => by
          have hidx : j + 1 + m = j + (m + 1) := by omega
          rw [hidx])
      simp only [Nat.succ_eq_add_one]
      rw [hshift, hsum]
      simp only [Nat.add_zero]
      ring

theorem buildArcLengthTable_eq (pts : List Vec3) (S : ℕ) :
    buildArcLengthTable pts S =
      ⟨0, 0⟩ :: (List.range S).map
        (fun k => ⟨((k + 1 : ℕ) : ℝ) / (S : ℝ), cumLen pts S (k + 1)⟩) := by
  unfold buildArcLengthTable
  have h0 : getPoint pts 0 = getPoint pts (((0 : ℕ) : ℝ) / (S : ℝ)) := by norm_num
  rw [h0, buildRest_closed pts S S 0 0]
  congr 1
  refine List.map_congr_left (fun k _ => ?_)
  have h1 : 0 + 1 + k = k + 1 := by omega
  simp only [h1, cumLen, Sample.mk.injEq, zero_add, Nat.zero_add]

theorem buildArcLengthTable_length (pts : List Vec3) (S : ℕ) :
    (buildArcLengthTable pts S).length = S + 1 := by
  rw [buildArcLengthTable_eq]; simp

theorem buildArcLengthTable_getD (pts : List Vec3) (S : ℕ) (k : ℕ) (hk : k ≤ S) :
    (buildArcLengthTable pts S).getD k ⟨0, 0⟩ = ⟨(k : ℝ) / (S : ℝ), cumLen pts S k⟩ := by
  rw [buildArcLengthTable_eq]
  cases k with
  | zero => simp [cumLen]
  | succ m =>
    have hm : m < S := by omega
    simp only [List.getD_cons_succ]
    rw [List.getD_eq_getElem _ _ (by simpa using hm)]
    simp

theorem tableTotalLength_eq (pts : List Vec3) (S : ℕ) :
    tableTotalLength pts S = cumLen pts S S := by
  unfold tableTotalLength
  rw [buildArcLengthTable_length, Nat.add_sub_cancel,
    buildArcLengthTable_getD pts S S le_rfl]

/-- C6: the arc-length table built at construction with segment count `S` has
exactly `S+1` entries, its parameters are exactly the uniform grid `i/S`, its
first entry is `(0, 0)`, its cumulative distances are monotonically
non-decreasing, and its last entry is `(1, totalLength)`. -/
theorem arc_length_table_invariants (pts : List Vec3) (S : ℕ) (hS : 1 ≤ S) :
    (buildArcLengthTable pts S).length = S + 1 ∧
    (∀ i ≤ S, ((buildArcLengthTable pts S).getD i ⟨0, 0⟩).parameter = (i : ℝ) / (S : ℝ)) ∧
    (buildArcLengthTable pts S).getD 0 ⟨0, 0⟩ = ⟨0, 0⟩ ∧
    (∀ i < S, ((buildArcLengthTable pts S).getD i ⟨0, 0⟩).distance ≤
      ((buildArcLengthTable pts S).getD (i + 1) ⟨0, 0⟩).distance) ∧
    ((buildArcLengthTable pts S).getD S ⟨0, 0⟩).parameter = 1 ∧
    ((buildArcLengthTable pts S).getD S ⟨0, 0⟩).distance = tableTotalLength pts S := by
  have hSpos : (0 : ℝ) < (S : ℝ) := by
    exact_mod_cast Nat.lt_of_lt_of_le Nat.zero_lt_one hS
  have hS0 : ((S : ℝ)) ≠ 0 := hSpos.ne'
  refine ⟨buildArcLengthTable_length pts S, ?_, ?_, ?_, ?_, ?_⟩
  · intro i hi; rw [buildArcLengthTable_getD pts S i hi]
  · rw [buildArcLengthTable_getD pts S 0 (by omega)]
    simp [cumLen]
  · intro i hi
    rw [buildArcLengthTable_getD pts S i (by omega),
      buildArcLengthTable_getD pts S (i + 1) (by omega)]
    exact cumLen_mono pts S (Nat.le_succ i)
  · rw [buildArcLengthTable_getD pts S S le_rfl]
    simp [div_self hS0]
  · rw [buildArcLengthTable_getD pts S S le_rfl, tableTotalLength_eq]

/-- Witness for C6 on the two-point curve `[(0,0,0), (1,0,0)]` with `S = 1`. -/
theorem arc_length_table_invariants_witness :
    (buildArcLengthTable [⟨0, 0, 0⟩, ⟨1, 0, 0⟩] 1).length = 1 + 1 ∧
    ((buildArcLengthTable [⟨0, 0, 0⟩, ⟨1, 0, 0⟩] 1).getD 1 ⟨0, 0⟩).parameter = 1 := by
  have h := arc_length_table_invariants [⟨0, 0, 0⟩, ⟨1, 0, 0⟩] 1 (by norm_num)
  exact ⟨h.1, h.2.2.2.2.1⟩

/-! ## The binary search of `getParameterForDistance` -/

theorem gpfdSearch_spec (D : ℕ → ℝ) (d : ℝ) :
    ∀ (N low high : ℕ), high - low ≤ N → low + 1 ≤ high → D low < d → d ≤ D high →
      low ≤ (gpfdSearch D d low high).1 ∧ (gpfdSearch D d low high).2 ≤ high ∧
      (gpfdSearch D d low high).2 = (gpfdSearch D d low high).1 + 1 ∧
      D (gpfdSearch D d low high).1 < d ∧ d ≤ D (gpfdSearch D d low high).2 := by
  intro N
  induction N with
  | zero => intro low high hN hlh _ _; omega
  | succ N ih =>
    intro low high hN hlh hlo hhi
    rw [gpfdSearch]
    by_cases hgap : low < high - 1
    · rw [dif_pos hgap]
      have hmid1 : low < (low + high) / 2 := by omega
      have hmid2 : (low + high) / 2 < high := by omega
      by_cases hcmp : D ((low + high) / 2) < d
      · rw [if_pos hcmp]
        have h := ih ((low + high) / 2) high (by omega) (by omega) hcmp hhi
        exact ⟨by omega, h.2.1, h.2.2.1, h.2.2.2.1, h.2.2.2.2⟩
      · rw [if_neg hcmp]
        have h := ih low ((low + high) / 2) (by omega) (by omega) hlo (le_of_not_lt hcmp)
        exact ⟨h.1, by omega, h.2.2.1, h.2.2.2.1, h.2.2.2.2⟩
    · rw [dif_neg hgap]
      have hhl : high = low + 1 := by omega
      exact ⟨le_rfl, le_rfl, hhl, hlo, hhi⟩

theorem gpfdSearch_le (D : ℕ → ℝ) (d d' : ℝ) (hdd : d ≤ d') :
    ∀ (N low high : ℕ), high - low ≤ N → low + 1 ≤ high →
      D low < d → d ≤ D high → D low < d' → d' ≤ D high →
      (gpfdSearch D d low high).1 ≤ (gpfdSearch D d' low high).1 ∧
      (gpfdSearch D d low high).2 ≤ (gpfdSearch D d' low high).2 := by
  intro N
  induction N with
  | zero => intro low high hN hlh _ _ _ _; omega
  | succ N ih =>
    intro low high hN hlh hlo hhi hlo' hhi'
    rw [gpfdSearch, gpfdSearch]
    by_cases hgap : low < high - 1
    · rw [dif_pos hgap, dif_pos hgap]
      have hmid1 : low < (low + high) / 2 := by omega
      have hmid2 : (low + high) / 2 < high := by omega
      by_cases hcmp : D ((low + high) / 2) < d
      · have hcmp' : D ((low + high) / 2) < d' := lt_of_lt_of_le hcmp hdd
        rw [if_pos hcmp, if_pos hcmp']
        exact ih ((low + high) / 2) high (by omega) (by omega) hcmp hhi hcmp' hhi'
      · rw [if_neg hcmp]
        by_cases hcmp' : D ((low + high) / 2) < d'
        · rw [if_pos hcmp']
          have h1 := gpfdSearch_spec D d N low ((low + high) / 2) (by omega) (by omega)
            hlo (le_of_not_lt hcmp)
          have h2 := gpfdSearch_spec D d' N ((low + high) / 2) high (by omega) (by omega)
            hcmp' hhi'
          omega
        · rw [if_neg hcmp']
          exact ih low ((low + high) / 2) (by omega) (by omega) hlo (le_of_not_lt hcmp)
            hlo' (le_of_not_lt hcmp')
    · rw [dif_neg hgap, dif_neg hgap]
      exact ⟨le_rfl, le_rfl⟩

theorem gpfd_interior_bounds (pts : List Vec3) (S : ℕ) (hS : 1 ≤ S) (d : ℝ)
    (hd0 : 0 < d) (hdL : d < tableTotalLength pts S) :
    ∃ l : ℕ,
      gpfdSearch (fun i => ((buildArcLengthTable pts S).getD i ⟨0, 0⟩).distance) d 0
          ((buildArcLengthTable pts S).length - 1) = (l, l + 1) ∧
      l + 1 ≤ S ∧ cumLen pts S l < d ∧ d ≤ cumLen pts S (l + 1) ∧
      getParameterForDistance (buildArcLengthTable pts S) (tableTotalLength pts S) d =
        (l : ℝ) / (S : ℝ) + (d - cumLen pts S l) / (cumLen pts S (l + 1) - cumLen pts S l)
          * (((l + 1 : ℕ) : ℝ) / (S : ℝ) - (l : ℝ) / (S : ℝ)) ∧
      (l : ℝ) / (S : ℝ) ≤
        getParameterForDistance (buildArcLengthTable pts S) (tableTotalLength pts S) d ∧
      getParameterForDistance (buildArcLengthTable pts S) (tableTotalLength pts S) d ≤
        ((l + 1 : ℕ) : ℝ) / (S : ℝ) := by
  have hlen : (buildArcLengthTable pts S).length - 1 = S := by
    rw [buildArcLengthTable_length]; omega
  have hD0 : ((buildArcLengthTable pts S).getD 0 ⟨0, 0⟩).distance = 0 := by
    rw [buildArcLengthTable_getD pts S 0 (by omega)]; simp [cumLen]
  have hDS : ((buildArcLengthTable pts S).getD S ⟨0, 0⟩).distance = tableTotalLength pts S := by
    rw [buildArcLengthTable_getD pts S S le_rfl, tableTotalLength_eq]
  have hspec := gpfdSearch_spec
    (fun i => ((buildArcLengthTable pts S).getD i ⟨0, 0⟩).distance) d S 0 S
    (by omega) (by omega)
    (by show ((buildArcLengthTable pts S).getD 0 ⟨0, 0⟩).distance < d; rw [hD0]; exact hd0)
    (by show d ≤ ((buildArcLengthTable pts S).getD S ⟨0, 0⟩).distance; rw [hDS]; exact hdL.le)
  obtain ⟨-, h2, h3, h4, h5⟩ := hspec
  set r := gpfdSearch (fun i => ((buildArcLengthTable pts S).getD i ⟨0, 0⟩).distance) d 0 S
    with hrdef
  have hr1 : r.1 ≤ S := by omega
  have hcl : ((buildArcLengthTable pts S).getD r.1 ⟨0, 0⟩).distance = cumLen pts S r.1 := by
    rw [buildArcLengthTable_getD pts S r.1 hr1]
  have hch : ((buildArcLengthTable pts S).getD r.2 ⟨0, 0⟩).distance = cumLen pts S (r.1 + 1) := by
    rw [h3, buildArcLengthTable_getD pts S (r.1 + 1) (by omega)]
  have hlo : cumLen pts S r.1 < d := by rw [← hcl]; exact h4
  have hhi : d ≤ cumLen pts S (r.1 + 1) := by rw [← hch]; exact h5
  have hval : getParameterForDistance (buildArcLengthTable pts S) (tableTotalLength pts S) d =
      (r.1 : ℝ) / (S : ℝ)
        + (d - cumLen pts S r.1) / (cumLen pts S (r.1 + 1) - cumLen pts S r.1)
          * (((r.1 + 1 : ℕ) : ℝ) / (S : ℝ) - (r.1 : ℝ) / (S : ℝ)) := by
    rw [getParameterForDistance, if_neg (not_le.mpr hd0), if_neg (not_le.mpr hdL)]
    simp only [hlen, ← hrdef]
    rw [hcl, hch, h3,
      buildArcLengthTable_getD pts S r.1 hr1,
      buildArcLengthTable_getD pts S (r.1 + 1) (by omega)]
  have hSpos : (0 : ℝ) < (S : ℝ) := by exact_mod_cast (by omega : 0 < S)
  have hden : 0 < cumLen pts S (r.1 + 1) - cumLen pts S r.1 := by linarith
  have hfrac0 : 0 ≤ (d - cumLen pts S r.1) / (cumLen pts S (r.1 + 1) - cumLen pts S r.1) :=
    div_nonneg (by linarith) hden.le
  have hfrac1 : (d - cumLen pts S r.1) / (cumLen pts S (r.1 + 1) - cumLen pts S r.1) ≤ 1 := by
    rw [div_le_one hden]; linarith
  have hPdiff : ((r.1 + 1 : ℕ) : ℝ) / (S : ℝ) - (r.1 : ℝ) / (S : ℝ) = 1 / (S : ℝ) := by
    push_cast; field_simp
  refine ⟨r.1, ?_, by omega, hlo, hhi, hval, ?_, ?_⟩
  · rw [hlen, ← hrdef]
    exact Prod.ext rfl h3
  · rw [hval]
    have : 0 ≤ (d - cumLen pts S r.1) / (cumLen pts S (r.1 + 1) - cumLen pts S r.1)
        * (((r.1 + 1 : ℕ) : ℝ) / (S : ℝ) - (r.1 : ℝ) / (S : ℝ)) := by
      rw [hPdiff]; positivity
    linarith
  · rw [hval]
    have hmul : (d - cumLen pts S r.1) / (cumLen pts S (r.1 + 1) - cumLen pts S r.1)
        * (((r.1 + 1 : ℕ) : ℝ) / (S : ℝ) - (r.1 : ℝ) / (S : ℝ)) ≤ 1 / (S : ℝ) := by
      rw [hPdiff]
      calc (d - cumLen pts S r.1) / (cumLen pts S (r.1 + 1) - cumLen pts S r.1) * (1 / (S : ℝ))
          ≤ 1 * (1 / (S : ℝ)) := by
            exact mul_le_mul_of_nonneg_right hfrac1 (by positivity)
        _ = 1 / (S : ℝ) := one_mul _
    have hsum : (r.1 : ℝ) / (S : ℝ) + 1 / (S : ℝ) = ((r.1 + 1 : ℕ) : ℝ) / (S : ℝ) := by
      push_cast; field_simp
    linarith

theorem gpfd_range (pts : List Vec3) (S : ℕ) (hS : 1 ≤ S) (d : ℝ) :
    0 ≤ getParameterForDistance (buildArcLengthTable pts S) (tableTotalLength pts S) d ∧
    getParameterForDistance (buildArcLengthTable pts S) (tableTotalLength pts S) d ≤ 1 := by
  by_cases h1 : d ≤ 0
  · rw [getParameterForDistance, if_pos h1]; norm_num
  by_cases h2 : tableTotalLength pts S ≤ d
  · rw [getParameterForDistance, if_neg h1, if_pos h2]; norm_num
  · obtain ⟨l, -, hlS, -, -, -, hlow, hhigh⟩ :=
      gpfd_interior_bounds pts S hS d (not_le.mp h1) (not_le.mp h2)
    have hSpos : (0 : ℝ) < (S : ℝ) := by exact_mod_cast (by omega : 0 < S)
    constructor
    · have : (0 : ℝ) ≤ (l : ℝ) / (S : ℝ) := by positivity
      linarith
    · have : ((l + 1 : ℕ) : ℝ) / (S : ℝ) ≤ 1 := by
        rw [div_le_one hSpos]; exact_mod_cast hlS
      linarith

theorem gpfd_mono (pts : List Vec3) (S : ℕ) (hS : 1 ≤ S) (d d' : ℝ) (hdd : d ≤ d') :
    getParameterForDistance (buildArcLengthTable pts S) (tableTotalLength pts S) d ≤
    getParameterForDistance (buildArcLengthTable pts S) (tableTotalLength pts S) d' := by
  by_cases h1 : d ≤ 0
  · have : getParameterForDistance (buildArcLengthTable pts S) (tableTotalLength pts S) d = 0 := by
      rw [getParameterForDistance, if_pos h1]
    rw [this]; exact (gpfd_range pts S hS d').1
  have h1' : ¬ d' ≤ 0 := fun h => h1 (hdd.trans h)
  by_cases h2' : tableTotalLength pts S ≤ d'
  · have : getParameterForDistance (buildArcLengthTable pts S) (tableTotalLength pts S) d' = 1 := by
      rw [getParameterForDistance, if_neg h1', if_pos h2']
    rw [this]; exact (gpfd_range pts S hS d).2
  have h2 : ¬ tableTotalLength pts S ≤ d := fun h => h2' (h.trans hdd)
  obtain ⟨l, hpair, hlS, hlo, hhi, hval, hlow, hhigh⟩ :=
    gpfd_interior_bounds pts S hS d (not_le.mp h1) (not_le.mp h2)
  obtain ⟨l', hpair', hlS', hlo', hhi', hval', hlow', hhigh'⟩ :=
    gpfd_interior_bounds pts S hS d' (not_le.mp h1') (not_le.mp h2')
  have hlen : (buildArcLengthTable pts S).length - 1 = S := by
    rw [buildArcLengthTable_length]; omega
  have hD0 : ((buildArcLengthTable pts S).getD 0 ⟨0, 0⟩).distance = 0 := by
    rw [buildArcLengthTable_getD pts S 0 (by omega)]; simp [cumLen]
  have hDS : ((buildArcLengthTable pts S).getD S ⟨0, 0⟩).distance = tableTotalLength pts S := by
    rw [buildArcLengthTable_getD pts S S le_rfl, tableTotalLength_eq]
  have hcomp := gpfdSearch_le
    (fun i => ((buildArcLengthTable pts S).getD i ⟨0, 0⟩).distance) d d' hdd S 0 S
    (by omega) (by omega)
    (by show ((buildArcLengthTable pts S).getD 0 ⟨0, 0⟩).distance < d
        rw [hD0]; exact not_le.mp h1)
    (by show d ≤ ((buildArcLengthTable pts S).getD S ⟨0, 0⟩).distance
        rw [hDS]; exact (not_le.mp h2).le)
    (by show ((buildArcLengthTable pts S).getD 0 ⟨0, 0⟩).distance < d'
        rw [hD0]; exact not_le.mp h1')
    (by show d' ≤ ((buildArcLengthTable pts S).getD S ⟨0, 0⟩).distance
        rw [hDS]; exact (not_le.mp h2').le)
  rw [hlen] at hpair hpair'
  rw [hpair, hpair'] at hcomp
  simp only at hcomp
  have hll : l ≤ l' := hcomp.1
  rcases Nat.eq_or_lt_of_le hll with heq | hlt
  · subst heq
    rw [hval, hval']
    have hden : 0 < cumLen pts S (l + 1) - cumLen pts S l := by linarith
    have hSpos : (0 : ℝ) < (S : ℝ) := by exact_mod_cast (by omega : 0 < S)
    have hPdiff : (0 : ℝ) ≤ ((l + 1 : ℕ) : ℝ) / (S : ℝ) - (l : ℝ) / (S : ℝ) := by
      have : (l : ℝ) / (S : ℝ) ≤ ((l + 1 : ℕ) : ℝ) / (S : ℝ) :=
        (div_le_div_iff_of_pos_right hSpos).mpr (by push_cast; linarith)
      linarith
    have hfrac : (d - cumLen pts S l) / (cumLen pts S (l + 1) - cumLen pts S l) ≤
        (d' - cumLen pts S l) / (cumLen pts S (l + 1) - cumLen pts S l) :=
      (div_le_div_iff_of_pos_right hden).mpr (by linarith)
    exact add_le_add_left (mul_le_mul_of_nonneg_right hfrac hPdiff) _
  · have hstep : l + 1 ≤ l' := hlt
    have hSpos : (0 : ℝ) < (S : ℝ) := by exact_mod_cast (by omega : 0 < S)
    have hmid : ((l + 1 : ℕ) : ℝ) / (S : ℝ) ≤ (l' : ℝ) / (S : ℝ) :=
      (div_le_div_iff_of_pos_right hSpos).mpr (by push_cast; exact_mod_cast hstep)
    linarith

/-! ## The degenerate (zero-length) curve -/

theorem getD_pair_of_zeros (i : ℕ) :
    ([⟨0, 0, 0⟩, ⟨0, 0, 0⟩] : List Vec3).getD i ⟨0, 0, 0⟩ = ⟨0, 0, 0⟩ := by
  match i with
  | 0 => rfl
  | 1 => rfl
  | n + 2 => rfl

theorem getPoint_degenerate (t : ℝ) : getPoint [⟨0, 0, 0⟩, ⟨0, 0, 0⟩] t = ⟨0, 0, 0⟩ := by
  unfold getPoint
  simp only [getD_pair_of_zeros]
  ext <;> simp [catmullRom]

theorem tableTotalLength_degenerate : tableTotalLength [⟨0, 0, 0⟩, ⟨0, 0, 0⟩] 1 = 0 := by
  rw [tableTotalLength_eq]
  simp [cumLen, Finset.sum_range_one, segLen, getPoint_degenerate, dist3]

/-- C2 (amended): the distance-to-parameter contract of a constructed
animator.  `d ≤ 0` returns 0 (this check takes precedence); `d ≥ totalLength`
returns 1 whenever additionally `d > 0` (on a curve of positive length that
covers every `d ≥ totalLength`); the result always lies in `[0, 1]`; and the
function is monotone non-decreasing over its whole input domain. -/
theorem parameter_for_distance_contract (pts : List Vec3) (cfg : Config)
    (hS : 1 ≤ cfg.arcLengthSegments) :
    (∀ d : ℝ, d ≤ 0 →
      getParameterForDistance (mkAnimator pts cfg).arcLengthTable
        (mkAnimator pts cfg).totalLength d = 0) ∧
    (∀ d : ℝ, 0 < d → (mkAnimator pts cfg).totalLength ≤ d →
      getParameterForDistance (mkAnimator pts cfg).arcLengthTable
        (mkAnimator pts cfg).totalLength d = 1) ∧
    (∀ d : ℝ, 0 ≤ getParameterForDistance (mkAnimator pts cfg).arcLengthTable
        (mkAnimator pts cfg).totalLength d ∧
      getParameterForDistance (mkAnimator pts cfg).arcLengthTable
        (mkAnimator pts cfg).totalLength d ≤ 1) ∧
    (∀ d d' : ℝ, d ≤ d' →
      getParameterForDistance (mkAnimator pts cfg).arcLengthTable
          (mkAnimator pts cfg).totalLength d ≤
        getParameterForDistance (mkAnimator pts cfg).arcLengthTable
          (mkAnimator pts cfg).totalLength d') := by
  refine ⟨?_, ?_, fun d => gpfd_range pts cfg.arcLengthSegments hS d,
    fun d d' h => gpfd_mono pts cfg.arcLengthSegments hS d d' h⟩
  · intro d hd
    show getParameterForDistance (buildArcLengthTable pts cfg.arcLengthSegments)
      (tableTotalLength pts cfg.arcLengthSegments) d = 0
    rw [getParameterForDistance, if_pos hd]
  · intro d hd hL
    have hL' : tableTotalLength pts cfg.arcLengthSegments ≤ d := hL
    show getParameterForDistance (buildArcLengthTable pts cfg.arcLengthSegments)
      (tableTotalLength pts cfg.arcLengthSegments) d = 1
    rw [getParameterForDistance, if_neg (not_le.mpr hd), if_pos hL']

/-- Witness for C2 on the animator over `[(0,0,0), (1,0,0)]` with one table
segment: the query at 0 returns 0 and the query at 1/2 is non-negative. -/
theorem parameter_for_distance_contract_witness :
    getParameterForDistance
        (mkAnimator [⟨0, 0, 0⟩, ⟨1, 0, 0⟩] { arcLengthSegments := 1 }).arcLengthTable
        (mkAnimator [⟨0, 0, 0⟩, ⟨1, 0, 0⟩] { arcLengthSegments := 1 }).totalLength 0 = 0 ∧
    0 ≤ getParameterForDistance
        (mkAnimator [⟨0, 0, 0⟩, ⟨1, 0, 0⟩] { arcLengthSegments := 1 }).arcLengthTable
        (mkAnimator [⟨0, 0, 0⟩, ⟨1, 0, 0⟩] { arcLengthSegments := 1 }).totalLength (1 / 2) := by
  have h := parameter_for_distance_contract [⟨0, 0, 0⟩, ⟨1, 0, 0⟩]
    { arcLengthSegments := 1 } (by norm_num)
  exact ⟨h.1 0 le_rfl, (h.2.2.1 (1 / 2)).1⟩

/-- C2 counterexample to the claim as stated: on the degenerate animator over
two identical control points, `totalLength = 0`, so the input `d = 0`
satisfies `d ≥ totalLength`, yet the code returns 0 (the `d ≤ 0` branch wins),
not 1 as the claim requires. -/
theorem parameter_for_distance_claim_counterexample :
    (mkAnimator [⟨0, 0, 0⟩, ⟨0, 0, 0⟩] { arcLengthSegments := 1 }).totalLength = 0 ∧
    getParameterForDistance
        (mkAnimator [⟨0, 0, 0⟩, ⟨0, 0, 0⟩] { arcLengthSegments := 1 }).arcLengthTable
        (mkAnimator [⟨0, 0, 0⟩, ⟨0, 0, 0⟩] { arcLengthSegments := 1 }).totalLength 0 ≠ 1 := by
  constructor
  · exact tableTotalLength_degenerate
  · show getParameterForDistance (buildArcLengthTable [⟨0, 0, 0⟩, ⟨0, 0, 0⟩] 1)
      (tableTotalLength [⟨0, 0, 0⟩, ⟨0, 0, 0⟩] 1) 0 ≠ 1
    rw [getParameterForDistance, if_pos le_rfl]
    norm_num

/-! ## Branch equations for `update` -/

theorem update_noop (a : Animator) (dt : ℝ) (h : a.isPlaying = false ∨ a.isComplete = true) :
    update a dt = (a, none) := by
  rw [update, if_pos h]

theorem update_train_wrap_loop (a : Animator) (dt : ℝ)
    (hp : a.isPlaying = true) (hc : a.isComplete = false) (hm : a.mode = "train")
    (hge : a.totalLength ≤ a.distanceTraveled + a.speed * dt) (hl : a.loop = true) :
    update a dt =
      ({ a with
          distanceTraveled := jsMod (a.distanceTraveled + a.speed * dt) a.totalLength,
          progress := getParameterForDistance a.arcLengthTable a.totalLength
            (jsMod (a.distanceTraveled + a.speed * dt) a.totalLength) },
        some (getPoint a.points (getParameterForDistance a.arcLengthTable a.totalLength
          (jsMod (a.distanceTraveled + a.speed * dt) a.totalLength)))) := by
  simp only [update]
  rw [if_neg (by simp [hp, hc]), if_pos hm, if_pos hge, if_pos hl]

theorem update_train_wrap_clamp (a : Animator) (dt : ℝ)
    (hp : a.isPlaying = true) (hc : a.isComplete = false) (hm : a.mode = "train")
    (hge : a.totalLength ≤ a.distanceTraveled + a.speed * dt) (hl : a.loop = false) :
    update a dt =
      ({ a with
          distanceTraveled := a.totalLength, isComplete := true,
          progress := getParameterForDistance a.arcLengthTable a.totalLength a.totalLength },
        some (getPoint a.points
          (getParameterForDistance a.arcLengthTable a.totalLength a.totalLength))) := by
  simp only [update]
  rw [if_neg (by simp [hp, hc]), if_pos hm, if_pos hge, if_neg (by simp [hl])]

theorem update_train_no_wrap (a : Animator) (dt : ℝ)
    (hp : a.isPlaying = true) (hc : a.isComplete = false) (hm : a.mode = "train")
    (hlt : a.distanceTraveled + a.speed * dt < a.totalLength) :
    update a dt =
      ({ a with
          distanceTraveled := a.distanceTraveled + a.speed * dt,
          progress := getParameterForDistance a.arcLengthTable a.totalLength
            (a.distanceTraveled + a.speed * dt) },
        some (getPoint a.points (getParameterForDistance a.arcLengthTable a.totalLength
          (a.distanceTraveled + a.speed * dt)))) := by
  simp only [update]
  rw [if_neg (by simp [hp, hc]), if_pos hm, if_neg (not_le.mpr hlt)]

theorem update_time_wrap_loop (a : Animator) (dt : ℝ)
    (hp : a.isPlaying = true) (hc : a.isComplete = false) (hm : ¬(a.mode = "train"))
    (hge : (1 : ℝ) ≤ a.progress + dt / a.duration) (hl : a.loop = true) :
    update a dt =
      ({ a with progress := jsMod (a.progress + dt / a.duration) 1 },
        some (getPoint a.points (jsMod (a.progress + dt / a.duration) 1))) := by
  simp only [update]
  rw [if_neg (by simp [hp, hc]), if_neg hm, if_pos hge, if_pos hl]

theorem update_time_wrap_clamp (a : Animator) (dt : ℝ)
    (hp : a.isPlaying = true) (hc : a.isComplete = false) (hm : ¬(a.mode = "train"))
    (hge : (1 : ℝ) ≤ a.progress + dt / a.duration) (hl : a.loop = false) :
    update a dt =
      ({ a with progress := 1, isComplete := true },
        some (getPoint a.points 1)) := by
  simp only [update]
  rw [if_neg (by simp [hp, hc]), if_neg hm, if_pos hge, if_neg (by simp [hl])]

theorem update_time_no_wrap (a : Animator) (dt : ℝ)
    (hp : a.isPlaying = true) (hc : a.isComplete = false) (hm : ¬(a.mode = "train"))
    (hlt : a.progress + dt / a.duration < 1) :
    update a dt =
      ({ a with progress := a.progress + dt / a.duration },
        some (getPoint a.points (a.progress + dt / a.duration))) := by
  simp only [update]
  rw [if_neg (by simp [hp, hc]), if_neg hm, if_neg (not_le.mpr hlt)]

/-! ## The JavaScript remainder for positive divisors -/

theorem jsMod_bounds (a b : ℝ) (hb : 0 < b) (ha : 0 ≤ a) :
    0 ≤ jsMod a b ∧ jsMod a b < b := by
  unfold jsMod jsTrunc
  rw [if_pos (div_nonneg ha hb.le)]
  have hfl : (⌊a / b⌋ : ℝ) ≤ a / b := Int.floor_le (a / b)
  have hfu : a / b < ⌊a / b⌋ + 1 := Int.lt_floor_add_one (a / b)
  have heq : a - b * (⌊a / b⌋ : ℝ) = b * (a / b - ⌊a / b⌋) := by
    field_simp
  rw [heq]
  constructor
  · exact mul_nonneg hb.le (by linarith)
  · have h1 : b * (a / b - ⌊a / b⌋) < b * 1 := mul_lt_mul_of_pos_left (by linarith) hb
    simpa using h1

theorem jsMod_exact (a b : ℝ) (hb : 0 < b) (ha : 0 ≤ a) :
    ∃ k : ℤ, a = (k : ℝ) * b + jsMod a b := by
  refine ⟨⌊a / b⌋, ?_⟩
  unfold jsMod jsTrunc
  rw [if_pos (div_nonneg ha hb.le)]
  ring

theorem bool_true_of_not_false {b : Bool} (h : ¬ b = false) : b = true := by
  cases b with
  | false => exact absurd rfl h
  | true => rfl

theorem bool_false_of_not_true {b : Bool} (h : ¬ b = true) : b = false := by
  cases b with
  | false => rfl
  | true => exact absurd rfl h

theorem not_noop_flags {a : Animator} (h : ¬(a.isPlaying = false ∨ a.isComplete = true)) :
    a.isPlaying = true ∧ a.isComplete = false := by
  push_neg at h
  exact ⟨bool_true_of_not_false h.1, bool_false_of_not_true h.2⟩

/-- `update` never changes the control points, configuration, table or
`totalLength`: only the playback counters and flags move. -/
theorem update_frame (a : Animator) (dt : ℝ) :
    ((update a dt).1).points = a.points ∧ ((update a dt).1).speed = a.speed ∧
    ((update a dt).1).mode = a.mode ∧ ((update a dt).1).duration = a.duration ∧
    ((update a dt).1).loop = a.loop ∧
    ((update a dt).1).arcLengthTable = a.arcLengthTable ∧
    ((update a dt).1).totalLength = a.totalLength := by
  by_cases h : a.isPlaying = false ∨ a.isComplete = true
  · rw [update_noop a dt h]
    exact ⟨rfl, rfl, rfl, rfl, rfl, rfl, rfl⟩
  · obtain ⟨hp, hc⟩ := not_noop_flags h
    by_cases hm : a.mode = "train"
    · by_cases hge : a.totalLength ≤ a.distanceTraveled + a.speed * dt
      · by_cases hl : a.loop = true
        · rw [update_train_wrap_loop a dt hp hc hm hge hl]
          exact ⟨rfl, rfl, rfl, rfl, rfl, rfl, rfl⟩
        · rw [update_train_wrap_clamp a dt hp hc hm hge (bool_false_of_not_true hl)]
          exact ⟨rfl, rfl, rfl, rfl, rfl, rfl, rfl⟩
      · rw [update_train_no_wrap a dt hp hc hm (not_le.mp hge)]
        exact ⟨rfl, rfl, rfl, rfl, rfl, rfl, rfl⟩
    · by_cases hge : (1 : ℝ) ≤ a.progress + dt / a.duration
      · by_cases hl : a.loop = true
        · rw [update_time_wrap_loop a dt hp hc hm hge hl]
          exact ⟨rfl, rfl, rfl, rfl, rfl, rfl, rfl⟩
        · rw [update_time_wrap_clamp a dt hp hc hm hge (bool_false_of_not_true hl)]
          exact ⟨rfl, rfl, rfl, rfl, rfl, rfl, rfl⟩
      · rw [update_time_no_wrap a dt hp hc hm (not_le.mp hge)]
        exact ⟨rfl, rfl, rfl, rfl, rfl, rfl, rfl⟩

/-- With `loop` set, no `update` branch ever touches `isComplete`. -/
theorem update_keeps_complete_of_loop (a : Animator) (dt : ℝ) (hl : a.loop = true) :
    ((update a dt).1).isComplete = a.isComplete := by
  by_cases h : a.isPlaying = false ∨ a.isComplete = true
  · rw [update_noop a dt h]
  · obtain ⟨hp, hc⟩ := not_noop_flags h
    by_cases hm : a.mode = "train"
    · by_cases hge : a.totalLength ≤ a.distanceTraveled + a.speed * dt
      · rw [update_train_wrap_loop a dt hp hc hm hge hl]
      · rw [update_train_no_wrap a dt hp hc hm (not_le.mp hge)]
    · by_cases hge : (1 : ℝ) ≤ a.progress + dt / a.duration
      · rw [update_time_wrap_loop a dt hp hc hm hge hl]
      · rw [update_time_no_wrap a dt hp hc hm (not_le.mp hge)]

/-- With `loop` set, one distance-mode step keeps `distanceTraveled ≤ totalLength`. -/
theorem update_dist_bound (a : Animator) (dt : ℝ) (hl : a.loop = true)
    (hm : a.mode = "train") (hL : 0 < a.totalLength)
    (hinv : a.distanceTraveled ≤ a.totalLength) :
    ((update a dt).1).distanceTraveled ≤ a.totalLength := by
  by_cases h : a.isPlaying = false ∨ a.isComplete = true
  · rw [update_noop a dt h]; exact hinv
  · obtain ⟨hp, hc⟩ := not_noop_flags h
    by_cases hge : a.totalLength ≤ a.distanceTraveled + a.speed * dt
    · rw [update_train_wrap_loop a dt hp hc hm hge hl]
      exact (jsMod_bounds _ _ hL (by linarith)).2.le
    · rw [update_train_no_wrap a dt hp hc hm (not_le.mp hge)]
      exact (not_le.mp hge).le

/-- With `loop` set, one time-mode step keeps `progress ≤ 1`. -/
theorem update_prog_bound (a : Animator) (dt : ℝ) (hl : a.loop = true)
    (hm : ¬(a.mode = "train")) (hinv : a.progress ≤ 1) :
    ((update a dt).1).progress ≤ 1 := by
  by_cases h : a.isPlaying = false ∨ a.isComplete = true
  · rw [update_noop a dt h]; exact hinv
  · obtain ⟨hp, hc⟩ := not_noop_flags h
    by_cases hge : (1 : ℝ) ≤ a.progress + dt / a.duration
    · rw [update_time_wrap_loop a dt hp hc hm hge hl]
      exact (jsMod_bounds _ _ one_pos (by linarith)).2.le
    · rw [update_time_no_wrap a dt hp hc hm (not_le.mp hge)]
      exact (not_le.mp hge).le

theorem runUpdates_cons (a : Animator) (dt : ℝ) (l : List ℝ) :
    runUpdates a (dt :: l) = runUpdates (update a dt).1 l := rfl

theorem runUpdates_loop_invariant (l : List ℝ) :
    ∀ a : Animator, a.loop = true →
      (runUpdates a l).loop = true ∧
      (runUpdates a l).mode = a.mode ∧
      (runUpdates a l).totalLength = a.totalLength ∧
      (a.isComplete = false → (runUpdates a l).isComplete = false) ∧
      (a.mode = "train" → 0 < a.totalLength → a.distanceTraveled ≤ a.totalLength →
        (runUpdates a l).distanceTraveled ≤ a.totalLength) ∧
      (¬(a.mode = "train") → a.progress ≤ 1 → (runUpdates a l).progress ≤ 1) := by
  induction l with
  | nil =>
    intro a hl
    exact ⟨hl, rfl, rfl, fun h => h, fun _ _ h => h, fun _ h => h⟩
  | cons dt l ih =>
    intro a hl
    have hf := update_frame a dt
    have hl' : (update a dt).1.loop = true := by rw [hf.2.2.2.2.1]; exact hl
    have ih' := ih (update a dt).1 hl'
    rw [runUpdates_cons]
    refine ⟨ih'.1, ?_, ?_, ?_, ?_, ?_⟩
    · rw [ih'.2.1, hf.2.2.1]
    · rw [ih'.2.2.1, hf.2.2.2.2.2.2]
    · intro hc
      exact ih'.2.2.2.1 (by rw [update_keeps_complete_of_loop a dt hl]; exact hc)
    · intro hm hL hinv
      have hres := ih'.2.2.2.2.1 (by rw [hf.2.2.1]; exact hm)
        (by rw [hf.2.2.2.2.2.2]; exact hL)
        (by rw [hf.2.2.2.2.2.2]; exact update_dist_bound a dt hl hm hL hinv)
      rw [hf.2.2.2.2.2.2] at hres
      exact hres
    · intro hm hinv
      exact ih'.2.2.2.2.2 (by rw [hf.2.2.1]; exact hm)
        (update_prog_bound a dt hl hm hinv)

/-- C3: in distance ("train") mode, while Playing and not Complete, whenever
the advanced total `distanceTraveled + speed * dt` stays strictly below
`totalLength` (no loop-wrap or completion-clamp), `update(dt)` sets
`distanceTraveled` to exactly `distanceTraveled + speed * dt`. -/
theorem train_constant_speed (a : Animator) (dt : ℝ)
    (hp : a.isPlaying = true) (hc : a.isComplete = false) (hm : a.mode = "train")
    (hlt : a.distanceTraveled + a.speed * dt < a.totalLength) :
    ((update a dt).1).distanceTraveled = a.distanceTraveled + a.speed * dt := by
  rw [update_train_no_wrap a dt hp hc hm hlt]

/-- Witness for C3 at a concrete playing animator, `dt = 1`. -/
theorem train_constant_speed_witness :
    ((update witnessTrain 1).1).distanceTraveled =
      witnessTrain.distanceTraveled + witnessTrain.speed * 1 :=
  train_constant_speed witnessTrain 1 rfl rfl rfl (by norm_num [witnessTrain])

/-- C4: with `loop = true`, along any sequence of `update` calls the distance
counter never exceeds `totalLength` (distance mode, positive length), the
progress counter never exceeds 1 (time mode), `isComplete` never becomes true,
and whenever a wrap fires the wrapped value is the exact remainder (an integer
number of laps subtracted, landing in `[0, totalLength)` resp. `[0, 1)`).
The invariants are proved for arbitrary real `dt` values, which subsumes the
claimed `dt ≥ 0`. -/
theorem loop_mode_invariants (a : Animator) (dts : List ℝ) (hl : a.loop = true) :
    (a.isComplete = false → ∀ n : ℕ, (runUpdates a (dts.take n)).isComplete = false) ∧
    (a.mode = "train" → 0 < a.totalLength → a.distanceTraveled ≤ a.totalLength →
      ∀ n : ℕ, (runUpdates a (dts.take n)).distanceTraveled ≤ a.totalLength) ∧
    (¬(a.mode = "train") → a.progress ≤ 1 →
      ∀ n : ℕ, (runUpdates a (dts.take n)).progress ≤ 1) ∧
    (∀ dt : ℝ, a.isPlaying = true → a.isComplete = false → a.mode = "train" →
      0 < a.totalLength → a.totalLength ≤ a.distanceTraveled + a.speed * dt →
      ∃ k : ℤ, a.distanceTraveled + a.speed * dt =
          (k : ℝ) * a.totalLength + ((update a dt).1).distanceTraveled ∧
        0 ≤ ((update a dt).1).distanceTraveled ∧
        ((update a dt).1).distanceTraveled < a.totalLength) ∧
    (∀ dt : ℝ, a.isPlaying = true → a.isComplete = false → ¬(a.mode = "train") →
      (1 : ℝ) ≤ a.progress + dt / a.duration →
      ∃ k : ℤ, a.progress + dt / a.duration =
          (k : ℝ) + ((update a dt).1).progress ∧
        0 ≤ ((update a dt).1).progress ∧ ((update a dt).1).progress < 1) := by
  refine ⟨fun hc n => (runUpdates_loop_invariant (dts.take n) a hl).2.2.2.1 hc,
    fun hm hL hinv n => (runUpdates_loop_invariant (dts.take n) a hl).2.2.2.2.1 hm hL hinv,
    fun hm hinv n => (runUpdates_loop_invariant (dts.take n) a hl).2.2.2.2.2 hm hinv,
    ?_, ?_⟩
  · intro dt hp hc hm hL hge
    rw [update_train_wrap_loop a dt hp hc hm hge hl]
    obtain ⟨k, hk⟩ :=
      jsMod_exact (a.distanceTraveled + a.speed * dt) a.totalLength hL (by linarith)
    have hb :=
      jsMod_bounds (a.distanceTraveled + a.speed * dt) a.totalLength hL (by linarith)
    exact ⟨k, hk, hb.1, hb.2⟩
  · intro dt hp hc hm hge
    rw [update_time_wrap_loop a dt hp hc hm hge hl]
    obtain ⟨k, hk⟩ := jsMod_exact (a.progress + dt / a.duration) 1 one_pos (by linarith)
    have hb := jsMod_bounds (a.progress + dt / a.duration) 1 one_pos (by linarith)
    refine ⟨k, ?_, hb.1, hb.2⟩
    simpa using hk

/-- Witness for C4 on a looping animator after one 1-second tick. -/
theorem loop_mode_invariants_witness :
    (runUpdates { witnessTrain with loop := true } ([1].take 1)).distanceTraveled ≤
      ({ witnessTrain with loop := true } : Animator).totalLength := by
  have h := loop_mode_invariants { witnessTrain with loop := true } [1] rfl
  exact h.2.1 rfl (by norm_num [witnessTrain]) (by norm_num [witnessTrain]) 1

/-- C5: with `loop = false`, `isComplete` becomes true after an `update`
exactly when the advanced counter reaches its bound (inclusive comparison);
and every `update` made while not playing or already complete is a no-op that
returns no position. -/
theorem completion_and_noop (a : Animator) (dt : ℝ) :
    (a.isPlaying = false ∨ a.isComplete = true → update a dt = (a, none)) ∧
    (a.loop = false → a.isPlaying = true → a.isComplete = false → a.mode = "train" →
      (((update a dt).1).isComplete = true ↔
        a.totalLength ≤ a.distanceTraveled + a.speed * dt)) ∧
    (a.loop = false → a.isPlaying = true → a.isComplete = false → ¬(a.mode = "train") →
      (((update a dt).1).isComplete = true ↔ (1 : ℝ) ≤ a.progress + dt / a.duration)) := by
  refine ⟨update_noop a dt, ?_, ?_⟩
  · intro hl hp hc hm
    constructor
    · intro hcomp
      by_contra hge
      rw [update_train_no_wrap a dt hp hc hm (not_le.mp hge)] at hcomp
      simp only [] at hcomp
      rw [hc] at hcomp
      exact Bool.false_ne_true hcomp
    · intro hge
      rw [update_train_wrap_clamp a dt hp hc hm hge hl]
  · intro hl hp hc hm
    constructor
    · intro hcomp
      by_contra hge
      rw [update_time_no_wrap a dt hp hc hm (not_le.mp hge)] at hcomp
      simp only [] at hcomp
      rw [hc] at hcomp
      exact Bool.false_ne_true hcomp
    · intro hge
      rw [update_time_wrap_clamp a dt hp hc hm hge hl]

/-- Witness for C5: a paused animator is left untouched and yields no position. -/
theorem completion_and_noop_witness :
    update (pause witnessTrain) 1 = (pause witnessTrain, none) :=
  (completion_and_noop (pause witnessTrain) 1).1 (Or.inl rfl)

/-- C9 (amended): `resume()` unconditionally sets `isPlaying := true` and
changes nothing else.  Hence Paused → Playing as claimed, and it is a no-op
precisely in the states where `isPlaying` is already true (such as Playing);
from Idle — where `isPlaying` is also false — it starts playback instead of
being a no-op. -/
theorem resume_sets_playing (a : Animator) :
    resume a = { a with isPlaying := true } ∧
    (a.isPlaying = false → (resume a).isPlaying = true) ∧
    (a.isPlaying = true → resume a = a) := by
  refine ⟨rfl, fun _ => rfl, fun h => ?_⟩
  cases a
  simp only [resume]
  simp only [] at h
  rw [h]

/-- Witness for C9 on a concrete Paused animator. -/
theorem resume_sets_playing_witness :
    (resume (pause witnessTrain)).isPlaying = true :=
  (resume_sets_playing (pause witnessTrain)).2.1 rfl

/-- C9 counterexample to the claim as stated: a freshly constructed animator
is Idle (`isPlaying = false`, `isComplete = false`, both counters zero), yet
`resume()` on it is not a no-op — it flips `isPlaying` to true, starting
playback from the beginning. -/
theorem resume_claim_counterexample :
    (mkAnimator [⟨0, 0, 0⟩, ⟨1, 0, 0⟩] {}).isPlaying = false ∧
    (mkAnimator [⟨0, 0, 0⟩, ⟨1, 0, 0⟩] {}).isComplete = false ∧
    (mkAnimator [⟨0, 0, 0⟩, ⟨1, 0, 0⟩] {}).progress = 0 ∧
    (mkAnimator [⟨0, 0, 0⟩, ⟨1, 0, 0⟩] {}).distanceTraveled = 0 ∧
    (resume (mkAnimator [⟨0, 0, 0⟩, ⟨1, 0, 0⟩] {})).isPlaying = true :=
  ⟨rfl, rfl, rfl, rfl, rfl⟩

/-- C10: `pause()` and `resume()` modify only the `isPlaying` flag — progress,
distance traveled, completion flag, control points, arc-length table, total
length and all configuration are untouched, so `resume` continues from exactly
the paused position; only `play()` and `reset()` zero the counters. -/
theorem pause_resume_frame_effect (a : Animator) :
    pause a = { a with isPlaying := false } ∧
    resume a = { a with isPlaying := true } ∧
    (pause a).progress = a.progress ∧
    (pause a).distanceTraveled = a.distanceTraveled ∧
    (pause a).isComplete = a.isComplete ∧
    (pause a).points = a.points ∧
    (pause a).arcLengthTable = a.arcLengthTable ∧
    (pause a).totalLength = a.totalLength ∧
    (resume a).progress = a.progress ∧
    (resume a).distanceTraveled = a.distanceTraveled ∧
    (resume a).isComplete = a.isComplete ∧
    (resume a).points = a.points ∧
    (resume a).arcLengthTable = a.arcLengthTable ∧
    (resume a).totalLength = a.totalLength ∧
    resume (pause a) = { a with isPlaying := true } ∧
    play a = { a with isPlaying := true, isComplete := false,
                      progress := 0, distanceTraveled := 0 } ∧
    reset a = { a with progress := 0, distanceTraveled := 0,
                       isPlaying := false, isComplete := false } :=
  ⟨rfl, rfl, rfl, rfl, rfl, rfl, rfl, rfl, rfl, rfl, rfl, rfl, rfl, rfl, rfl, rfl, rfl⟩

/-- C7 (amended): on a zero-length curve, distance-to-parameter queries at
`d ≤ 0` resolve to 0 and queries at `d > 0` resolve to 1 — the two early
returns cover every input, so the conversion itself never reaches its
division — but the loop modulo-wrap of `update` is unguarded: a playing,
non-complete, looping train-mode update whose advanced distance reaches the
bound executes `distanceTraveled %= totalLength` with divisor 0 (`NaN` in
JavaScript). -/
theorem degenerate_curve_behavior (a : Animator) (hL : a.totalLength = 0) :
    (∀ d : ℝ, d ≤ 0 → getParameterForDistance a.arcLengthTable a.totalLength d = 0) ∧
    (∀ d : ℝ, 0 < d → getParameterForDistance a.arcLengthTable a.totalLength d = 1) ∧
    (∀ dt : ℝ, a.isPlaying = true → a.isComplete = false → a.mode = "train" →
      a.loop = true → 0 ≤ a.distanceTraveled + a.speed * dt →
      updateWrapsModZero a dt) := by
  refine ⟨?_, ?_, ?_⟩
  · intro d hd
    rw [getParameterForDistance, if_pos hd]
  · intro d hd
    rw [getParameterForDistance, if_neg (not_le.mpr hd), if_pos (by rw [hL]; exact hd.le)]
  · intro dt hp hc hm hl hge
    exact ⟨hp, hc, hm, by rw [hL]; exact hge, hl, hL⟩

/-- Witness for C7 on the concrete degenerate animator, query at -1. -/
theorem degenerate_curve_behavior_witness :
    getParameterForDistance
      (play (mkAnimator [⟨0, 0, 0⟩, ⟨0, 0, 0⟩]
        { arcLengthSegments := 1, loop := true })).arcLengthTable
      (play (mkAnimator [⟨0, 0, 0⟩, ⟨0, 0, 0⟩]
        { arcLengthSegments := 1, loop := true })).totalLength (-1) = 0 := by
  have h := degenerate_curve_behavior
    (play (mkAnimator [⟨0, 0, 0⟩, ⟨0, 0, 0⟩] { arcLengthSegments := 1, loop := true }))
    (by show tableTotalLength [⟨0, 0, 0⟩, ⟨0, 0, 0⟩] 1 = 0
        exact tableTotalLength_degenerate)
  exact h.1 (-1) (by norm_num)

/-- C7 counterexample to the claim as stated: on the degenerate looping
animator (two identical control points, `totalLength = 0`), the query at
`d = 1` resolves to parameter 1, not 0; and the first `update(1)` after
`play()` satisfies every guard on the path to `distanceTraveled %= totalLength`
with `totalLength = 0` — the code does take a remainder by zero. -/
theorem degenerate_guard_counterexample :
    getParameterForDistance
        (play (mkAnimator [⟨0, 0, 0⟩, ⟨0, 0, 0⟩]
          { arcLengthSegments := 1, loop := true })).arcLengthTable
        (play (mkAnimator [⟨0, 0, 0⟩, ⟨0, 0, 0⟩]
          { arcLengthSegments := 1, loop := true })).totalLength 1 ≠ 0 ∧
    updateWrapsModZero
      (play (mkAnimator [⟨0, 0, 0⟩, ⟨0, 0, 0⟩] { arcLengthSegments := 1, loop := true }))
      1 := by
  constructor
  · show getParameterForDistance (buildArcLengthTable [⟨0, 0, 0⟩, ⟨0, 0, 0⟩] 1)
      (tableTotalLength [⟨0, 0, 0⟩, ⟨0, 0, 0⟩] 1) 1 ≠ 0
    rw [getParameterForDistance, if_neg (by norm_num),
      if_pos (by rw [tableTotalLength_degenerate]; norm_num)]
    norm_num
  · refine ⟨rfl, rfl, rfl, ?_, rfl, ?_⟩
    · show tableTotalLength [⟨0, 0, 0⟩, ⟨0, 0, 0⟩] 1 ≤ 0 + 1 * 1
      rw [tableTotalLength_degenerate]; norm_num
    · show tableTotalLength [⟨0, 0, 0⟩, ⟨0, 0, 0⟩] 1 = 0
      exact tableTotalLength_degenerate

/-! ## The JavaScript-faithful layer: failure on short inputs, agreement otherwise -/

theorem getPointJS_short_error (pts : List Vec3) (h : pts.length < 2) :
    getPointJS pts 0 = .error .typeError := by
  cases pts with
  | nil => norm_num [getPointJS, jsIndex]
  | cons p rest =>
    cases rest with
    | nil => norm_num [getPointJS, jsIndex]
    | cons q r => simp at h; omega

theorem buildArcLengthTableJS_short_error (pts : List Vec3) (h : pts.length < 2) (S : ℕ) :
    buildArcLengthTableJS pts S = .error .typeError := by
  rw [buildArcLengthTableJS]
  rw [getPointJS_short_error pts h]
  rfl

theorem mkAnimatorJS_short_error (pts : List Vec3) (h : pts.length < 2) (cfg : Config) :
    mkAnimatorJS pts cfg = .error .typeError := by
  rw [mkAnimatorJS]
  rw [buildArcLengthTableJS_short_error pts h cfg.arcLengthSegments]
  rfl

theorem jsIndex_in_range (pts : List Vec3) (i : ℤ) (h0 : 0 ≤ i)
    (hlt : i.toNat < pts.length) :
    jsIndex pts i = some (pts.getD i.toNat ⟨0, 0, 0⟩) := by
  unfold jsIndex
  rw [if_pos h0, List.getElem?_eq_getElem hlt, List.getD_eq_getElem _ _ hlt]

theorem getPointJS_eq (pts : List Vec3) (t : ℝ) (h2 : 2 ≤ pts.length) :
    getPointJS pts t = .ok (getPoint pts t) := by
  have hn1 : 1 ≤ pts.length - 1 := by omega
  have hcastR : (((pts.length : ℤ) - 1 : ℤ) : ℝ) = ((pts.length - 1 : ℕ) : ℝ) := by
    rw [Nat.cast_sub (by omega : 1 ≤ pts.length)]
    push_cast
    ring
  have ht0 : (0 : ℝ) ≤ max 0 (min 1 t) := le_max_left _ _
  have ht1 : max 0 (min 1 t) ≤ 1 := max_le (by norm_num) (min_le_left _ _)
  have hF0 : 0 ≤ ⌊max 0 (min 1 t) * ((pts.length - 1 : ℕ) : ℝ)⌋ :=
    Int.floor_nonneg.mpr (by positivity)
  have hFn : ⌊max 0 (min 1 t) * ((pts.length - 1 : ℕ) : ℝ)⌋ ≤ ((pts.length - 1 : ℕ) : ℤ) := by
    have hmul : max 0 (min 1 t) * ((pts.length - 1 : ℕ) : ℝ) ≤ ((pts.length - 1 : ℕ) : ℝ) :=
      mul_le_of_le_one_left (by positivity) ht1
    have hf := Int.floor_le_floor hmul
    rwa [Int.floor_natCast] at hf
  simp only [getPointJS, getPoint]
  rw [hcastR]
  generalize hFeq : ⌊max 0 (min 1 t) * ((pts.length - 1 : ℕ) : ℝ)⌋ = F
  rw [hFeq] at hF0 hFn
  generalize hsZeq : min F ((pts.length : ℤ) - 1 - 1) = sZ
  have hsZ0 : 0 ≤ sZ := by rw [← hsZeq]; exact le_min hF0 (by omega)
  have hsZle : sZ ≤ (pts.length : ℤ) - 1 - 1 := by rw [← hsZeq]; exact min_le_right _ _
  have hsZN : sZ.toNat = min F.toNat (pts.length - 1 - 1) := by
    rw [← hsZeq]
    rcases le_total F ((pts.length : ℤ) - 1 - 1) with h | h
    · rw [min_eq_left h, min_eq_left (by omega : F.toNat ≤ pts.length - 1 - 1)]
    · rw [min_eq_right h, min_eq_right (by omega : pts.length - 1 - 1 ≤ F.toNat)]
      omega
  have hidx0 : (max 0 (sZ - 1)).toNat = sZ.toNat - 1 := by
    rcases le_total (sZ - 1) 0 with h | h
    · rw [max_eq_left h]
      omega
    · rw [max_eq_right h]
      omega
  have h0 : jsIndex pts (max 0 (sZ - 1)) = some (pts.getD (sZ.toNat - 1) ⟨0, 0, 0⟩) := by
    rw [jsIndex_in_range pts (max 0 (sZ - 1)) (le_max_left _ _) (by rw [hidx0]; omega), hidx0]
  have h1 : jsIndex pts sZ = some (pts.getD sZ.toNat ⟨0, 0, 0⟩) :=
    jsIndex_in_range pts sZ hsZ0 (by omega)
  have hidx2 : (min ((pts.length : ℤ) - 1) (sZ + 1)).toNat =
      min (pts.length - 1) (sZ.toNat + 1) := by
    rcases le_total ((pts.length : ℤ) - 1) (sZ + 1) with h | h
    · rw [min_eq_left h, min_eq_left (show pts.length - 1 ≤ sZ.toNat + 1 by omega)]
      omega
    · rw [min_eq_right h, min_eq_right (show sZ.toNat + 1 ≤ pts.length - 1 by omega)]
      omega
  have h2i : jsIndex pts (min ((pts.length : ℤ) - 1) (sZ + 1)) =
      some (pts.getD (min (pts.length - 1) (sZ.toNat + 1)) ⟨0, 0, 0⟩) := by
    rw [jsIndex_in_range pts _ (le_min (by omega) (by omega)) (by rw [hidx2]; omega), hidx2]
  have hidx3 : (min ((pts.length : ℤ) - 1) (sZ + 2)).toNat =
      min (pts.length - 1) (sZ.toNat + 2) := by
    rcases le_total ((pts.length : ℤ) - 1) (sZ + 2) with h | h
    · rw [min_eq_left h, min_eq_left (show pts.length - 1 ≤ sZ.toNat + 2 by omega)]
      omega
    · rw [min_eq_right h, min_eq_right (show sZ.toNat + 2 ≤ pts.length - 1 by omega)]
      omega
  have h3 : jsIndex pts (min ((pts.length : ℤ) - 1) (sZ + 2)) =
      some (pts.getD (min (pts.length - 1) (sZ.toNat + 2)) ⟨0, 0, 0⟩) := by
    rw [jsIndex_in_range pts _ (le_min (by omega) (by omega)) (by rw [hidx3]; omega), hidx3]
  rw [h0, h1, h2i, h3]
  have hcastT : (sZ : ℝ) = (sZ.toNat : ℝ) := by
    exact_mod_cast (Int.toNat_of_nonneg hsZ0).symm
  rw [hcastT, hsZN]

theorem buildRestJS_eq (pts : List Vec3) (S : ℕ) (h2 : 2 ≤ pts.length) :
    ∀ (fuel i : ℕ) (td : ℝ) (prev : Vec3),
      buildRestJS pts S i fuel td prev = .ok (buildRest pts S i fuel td prev) := by
  intro fuel
  induction fuel with
  | zero => intro i td prev; rfl
  | succ fuel ih =>
    intro i td prev
    simp only [buildRestJS, buildRest]
    rw [getPointJS_eq pts ((i : ℝ) / (S : ℝ)) h2]
    show (buildRestJS pts S (i + 1) fuel
        (td + dist3 prev (getPoint pts ((i : ℝ) / (S : ℝ))))
        (getPoint pts ((i : ℝ) / (S : ℝ)))).bind _ = _
    rw [ih (i + 1) (td + dist3 prev (getPoint pts ((i : ℝ) / (S : ℝ))))
      (getPoint pts ((i : ℝ) / (S : ℝ)))]
    rfl

theorem buildArcLengthTableJS_eq (pts : List Vec3) (S : ℕ) (h2 : 2 ≤ pts.length) :
    buildArcLengthTableJS pts S = .ok (buildArcLengthTable pts S) := by
  rw [buildArcLengthTableJS, getPointJS_eq pts 0 h2]
  show (buildRestJS pts S 1 S 0 (getPoint pts 0)).bind _ = _
  rw [buildRestJS_eq pts S h2 S 1 0 (getPoint pts 0)]
  rfl

theorem mkAnimatorJS_eq (pts : List Vec3) (cfg : Config) (h2 : 2 ≤ pts.length) :
    mkAnimatorJS pts cfg = .ok (mkAnimator pts cfg) := by
  rw [mkAnimatorJS, buildArcLengthTableJS_eq pts cfg.arcLengthSegments h2]
  rfl

/-- C8 (amended): constructing an animator with fewer than 2 control points
does fail at construction time rather than succeeding and silently degrading —
the eager arc-length sampling reads an out-of-range (negative) array index,
gets `undefined`, and `catmullRom` throws a `TypeError` — but the failure is
that incidental `TypeError`, not a reported invalid-configuration error: the
constructor performs no validation.  With at least 2 points construction
succeeds. -/
theorem construction_with_short_points (pts : List Vec3) (cfg : Config) :
    (pts.length < 2 → mkAnimatorJS pts cfg = .error .typeError) ∧
    (2 ≤ pts.length → mkAnimatorJS pts cfg = .ok (mkAnimator pts cfg)) :=
  ⟨fun h => mkAnimatorJS_short_error pts h cfg,
   fun h => mkAnimatorJS_eq pts cfg h⟩

/-- Witness for C8: one-point construction throws, two-point construction
succeeds. -/
theorem construction_with_short_points_witness :
    mkAnimatorJS [⟨0, 0, 0⟩] { arcLengthSegments := 1 } = .error .typeError ∧
    mkAnimatorJS [⟨0, 0, 0⟩, ⟨1, 0, 0⟩] { arcLengthSegments := 1 } =
      .ok (mkAnimator [⟨0, 0, 0⟩, ⟨1, 0, 0⟩] { arcLengthSegments := 1 }) :=
  ⟨(construction_with_short_points [⟨0, 0, 0⟩] { arcLengthSegments := 1 }).1 (by norm_num),
   (construction_with_short_points [⟨0, 0, 0⟩, ⟨1, 0, 0⟩] { arcLengthSegments := 1 }).2
     (by norm_num)⟩

/-- C8 counterexample to the claim as stated: constructing from a single
control point produces a `TypeError` thrown out of the arc-length sampling,
which is not the invalid-configuration error the claim requires. -/
theorem construction_error_kind_counterexample :
    mkAnimatorJS [⟨0, 0, 0⟩] {} = .error .typeError ∧
    mkAnimatorJS [⟨0, 0, 0⟩] {} ≠ .error .invalidConfig := by
  have h := mkAnimatorJS_short_error [⟨0, 0, 0⟩] (by norm_num) {}
  refine ⟨h, ?_⟩
  rw [h]
  simp

end

end CurveAnim
